import Mathlib

/-!
Verification of the proof-of-stake kernel of the Dynamic repository
(src/pos/kernel.cpp): stake-modifier derivation, kernel-hash evaluation
against a value-weighted difficulty target, the block proposer's bounded
staking search, and the validator's proof-of-stake check.

Machine integers are embedded as Nat or Int with explicit reductions
modulo 2 ^ 32 (unsigned int), 2 ^ 64 (the int64 to uint64 conversion in
arith_uint256(CAmount)) and 2 ^ 256 (arith_uint256 arithmetic) at the
places where the C++ types wrap.  Cryptographic digest functions
(HashBlake2b, CHashWriter::GetHash) are abstract parameters: the kernel
treats them as external capabilities and no claim depends on a concrete
digest value.
-/

namespace PoSKernel

/-- Little-endian serialization of a natural number into w bytes, modelling
a CDataStream write of a fixed-width unsigned integer. -/
def serLE (w : Nat) (n : Nat) : List Nat :=
  (List.range w).map (fun i => n / 256 ^ i % 256)

/-- Serialization of a uint256 value: 32 bytes, little endian. -/
def ser256 (n : Nat) : List Nat := serLE 32 n

/-- Serialization of a uint32 value: 4 bytes, little endian. -/
def ser32 (n : Nat) : List Nat := serLE 4 n

/-- A node of the block index (CBlockIndex), restricted to the fields the
proof-of-stake kernel reads: nHeight, nTime and nStakeModifier.  A null
CBlockIndex pointer is modelled as Option.none at use sites that test for
null; functions that dereference a pointer unconditionally take a
BlockIndex directly, making the non-null precondition part of the type. -/
structure BlockIndex where
  nHeight : Int
  nTime : Nat
  nStakeModifier : Nat
  deriving DecidableEq

/-- Modelled from the spec: the CStakeInput abstraction (pos/stakeinput.h
and pos/stakeinput.cpp are not part of the sources here).  Per the spec
data model a stake input exposes a signed integer value (GetValue), an
opaque byte fingerprint (GetUniqueness) and the origin chain position
(GetIndexFrom), which may fail to resolve. -/
structure StakeInput where
  value : Int
  uniqueness : List Nat
  indexFrom : Option BlockIndex
  deriving DecidableEq

/-- ComputeStakeModifier (kernel.cpp lines 34-44): the genesis case (null
parent) yields the all-zero modifier; otherwise the result is the digest
of the serialized kernel seed followed by the parent's stake modifier.
The digest function (CHashWriter::GetHash) is an abstract parameter. -/
def computeStakeModifier (hashFn : List Nat → Nat) (pindexPrev : Option BlockIndex)
    (kernel : Nat) : Nat :=
  match pindexPrev with
  | none => 0
  | some p => hashFn (ser256 kernel ++ ser256 p.nStakeModifier)

/-- Modelled from the spec: the standard compact-to-256-bit target expansion
(arith_uint256::SetCompact; arith_uint256.cpp is not among the sources
here, and the spec names the standard expansion).  The exponent byte is the
top byte of the compact word, the mantissa its low 23 bits; the shift is
truncated to 256 bits as in arith_uint256. -/
def setCompact (nCompact : Nat) : Nat :=
  let c := nCompact % 2 ^ 32
  let nSize := c / 2 ^ 24
  let nWord := c % 2 ^ 23
  if nSize ≤ 3 then nWord / 2 ^ (8 * (3 - nSize))
  else nWord * 2 ^ (8 * (nSize - 3)) % 2 ^ 256

/-- GetHashProofOfStake (kernel.cpp lines 82-105).  Fails (returns none)
exactly when the stake input's origin block index cannot be resolved;
otherwise hashes, with HashBlake2b abstracted as the parameter blake, the
serialization of the parent's stake modifier, the origin block's time, the
stake input's uniqueness bytes and the candidate time, in that order.
pindexPrev is dereferenced unconditionally in the source, so it is taken
here as a plain BlockIndex (non-null by type). -/
def getHashProofOfStake (blake : List Nat → Nat) (pindexPrev : BlockIndex)
    (stake : StakeInput) (nTimeTx : Nat) : Option Nat :=
  match stake.indexFrom with
  | none => none
  | some pindexfrom =>
      some (blake (ser256 pindexPrev.nStakeModifier ++ ser32 pindexfrom.nTime ++
        stake.uniqueness ++ ser32 nTimeTx))

/-- CheckStakeKernelHash (kernel.cpp lines 46-80).  Returns the success
flag together with the computed proof hash (none when the hash could not
be computed, in which case the function returned false through error()).
The weight is arith_uint256(nValueIn) / 100, where the CAmount (int64) is
converted to unsigned 64-bit first; the weighted target multiplication is
arith_uint256 arithmetic, i.e. modulo 2 ^ 256.  The fVerify flag of the
source only selects logging and is omitted. -/
def checkStakeKernelHash (blake : List Nat → Nat) (pindexPrev : BlockIndex)
    (nBits : Nat) (stake : StakeInput) (nTimeTx : Nat) : Bool × Option Nat :=
  match getHashProofOfStake blake pindexPrev stake nTimeTx with
  | none => (false, none)
  | some h =>
      let bnWeight := (stake.value % (2 ^ 64 : Int)).toNat / 100
      let bnTarget := setCompact nBits * bnWeight % 2 ^ 256
      (decide (h < bnTarget), some h)

/-- The fixed probing drift of the staking search (kernel.cpp line 129). -/
def nHashDrift : Nat := 60

/-- The external state and capabilities the Stake search reads: the
HashBlake2b digest (blake), the consensus parameters nStakeMinAge and
COINSTAKE_MIN_DEPTH, the adjusted wall-clock time at the maturity check,
the network's maximum allowed future block time (the second argument of
std::min at kernel.cpp line 133), the chain-tip height chainActive.Height()
as observed at the i-th loop iteration (chainHeight i), and the tip height
and wall-clock time read after the loop when the attempt cache is updated
(kernel.cpp lines 153-154). -/
structure StakeEnv where
  blake : List Nat → Nat
  nStakeMinAge : Int
  adjustedTime : Int
  coinstakeMinDepth : Int
  maxFutureBlockTime : Nat
  chainHeight : Nat → Int
  tipHeightFinal : Int
  timeFinal : Int

/-- The probing loop of Stake (kernel.cpp lines 135-151).  The C++ while
loop guards on nTryTime < maxTime and increments nTryTime by exactly one
per iteration, so the number of remaining guard successes is maxTime -
nTryTime; that quantity is passed explicitly as structural fuel (the
caller supplies maxTime - nTryTime, making the two formulations iterate
identically).  Each iteration first re-reads the chain-tip height and
aborts if it moved, then probes the next candidate time.  Returns the
found (time, proof hash) if any, together with the number of kernel-hash
evaluations performed. -/
def stakeLoop (env : StakeEnv) (pindexPrev : BlockIndex) (nBits : Nat)
    (stakeInput : StakeInput) (prevHeight : Int) :
    Nat → Nat → Nat → Option (Nat × Nat) × Nat
  | 0, _, _ => (none, 0)
  | fuel + 1, nTryTime, i =>
      if env.chainHeight i ≠ prevHeight then (none, 0)
      else
        match checkStakeKernelHash env.blake pindexPrev nBits stakeInput (nTryTime + 1) with
        | (true, some h) => (some (nTryTime + 1, h), 1)
        | _ =>
            let r := stakeLoop env pindexPrev nBits stakeInput prevHeight fuel (nTryTime + 1) (i + 1)
            (r.1, r.2 + 1)

/-- The probing bound of Stake (kernel.cpp line 133): the minimum of
nTimeTx + nHashDrift and the maximum allowed future block time, in
unsigned 32-bit arithmetic. -/
def stakeMaxTime (env : StakeEnv) (tt : Nat) : Nat :=
  min ((tt + nHashDrift) % 2 ^ 32) (env.maxFutureBlockTime % 2 ^ 32)

/-- The result of one Stake invocation: the success flag, the (possibly
updated) nTimeTx out-parameter, the proof hash found on success, the
contents of mapHashedBlocks on return, and the number of kernel-hash
evaluations performed. -/
structure StakeResult where
  success : Bool
  nTimeTx : Nat
  hashProof : Option Nat
  cache : List (Int × Int)
  probes : Nat
  deriving DecidableEq

/-- The epilogue of Stake (kernel.cpp lines 153-155): whatever the loop
produced, mapHashedBlocks is cleared and the single entry mapping the
current tip height to the current wall-clock time is inserted. -/
def stakeFinish (env : StakeEnv) (nTimeTx : Nat) :
    Option (Nat × Nat) × Nat → StakeResult
  | (some (t, h), n) => ⟨true, t, some h, [(env.tipHeightFinal, env.timeFinal)], n⟩
  | (none, n) => ⟨false, nTimeTx, none, [(env.tipHeightFinal, env.timeFinal)], n⟩

/-- Stake (kernel.cpp lines 107-156).  The early returns (missing or
too-low origin index, minimum-age violation, minimum-depth violation)
leave the attempt cache cache0 untouched; the loop-reaching paths replace
it.  nTimeTx is an unsigned int, so it is reduced modulo 2 ^ 32 and the
initial nTryTime = nTimeTx - 1 wraps.  The loop fuel is
maxTime - nTryTime, the exact number of guard successes of the C++ loop
(zero when nTryTime is already at or above maxTime). -/
def Stake (env : StakeEnv) (cache0 : List (Int × Int)) (pindexPrev : BlockIndex)
    (stakeInput : StakeInput) (nBits : Nat) (nTimeTx : Nat) : StakeResult :=
  match stakeInput.indexFrom with
  | none => ⟨false, nTimeTx, none, cache0, 0⟩
  | some pindexFrom =>
      if pindexFrom.nHeight < 1 then ⟨false, nTimeTx, none, cache0, 0⟩
      else if env.nStakeMinAge > env.adjustedTime - (pindexFrom.nTime : Int) then
        ⟨false, nTimeTx, none, cache0, 0⟩
      else if pindexPrev.nHeight + 1 < pindexFrom.nHeight + env.coinstakeMinDepth then
        ⟨false, nTimeTx, none, cache0, 0⟩
      else
        stakeFinish env nTimeTx
          (stakeLoop env pindexPrev nBits stakeInput pindexPrev.nHeight
            (stakeMaxTime env (nTimeTx % 2 ^ 32) - (nTimeTx % 2 ^ 32 + 2 ^ 32 - 1) % 2 ^ 32)
            ((nTimeTx % 2 ^ 32 + 2 ^ 32 - 1) % 2 ^ 32) 0)

/-- A transaction input (CTxIn), restricted to the fields kernel.cpp
reads: the referenced previous output (hash and index) and the unlocking
script bytes. -/
structure TxIn where
  prevoutHash : Nat
  prevoutN : Nat
  scriptSig : List Nat
  deriving DecidableEq

/-- A transaction output (CTxOut), restricted to the fields kernel.cpp
reads: the amount and the locking script bytes. -/
structure TxOut where
  nValue : Int
  scriptPubKey : List Nat
  deriving DecidableEq

/-- A transaction (CTransaction) as kernel.cpp consumes it.  The
IsCoinStake classification is modelled from the spec: its implementation
(primitives/transaction.h) is not among the sources here, and the spec
treats "is actually a coinstake transaction" as an attribute of the
transaction, so it is carried as an abstract boolean attribute. -/
structure Tx where
  vin : List TxIn
  vout : List TxOut
  isCoinStake : Bool
  deriving DecidableEq

/-- A block (CBlock) as kernel.cpp consumes it: the transaction list, the
previous block hash, the block time and the compact difficulty bits. -/
structure Block where
  vtx : List Tx
  hashPrevBlock : Nat
  nTime : Nat
  nBits : Nat
  deriving DecidableEq

/-- The distinct rejection causes of initStakeInput and CheckProofOfStake,
in the order the source tests them (the source returns a bare false with a
distinct log message for each; the reason is made explicit here so that
ordering and short-circuiting are statable). -/
inductive StakeError where
  | notCoinStake
  | originLookupFailed
  | signatureInvalid
  | originIndexMissing
  | minDepthViolation
  | minAgeViolation
  | kernelTargetNotMet
  deriving DecidableEq

/-- The external capabilities CheckProofOfStake consumes: the transaction
index (GetTransaction, returning the transaction and the hash of its
block), script verification (VerifyScript with the standard flags and a
signature checker bound to the spending transaction), the construction of
the stake input from the previous transaction and output index
(CDynamicStake::SetInput and its accessors, modelled from the spec since
pos/stakeinput.cpp is not among the sources here), the block index map
(mapBlockIndex, whose operator access is total here, modelling the
precondition that the previous block is indexed), the consensus maturity
predicates HasStakeMinDepth and HasStakeMinAge (chainparams, not among the
sources here), and the HashBlake2b digest. -/
structure ValidationEnv where
  getTransaction : Nat → Option (Tx × Nat)
  verifyScript : List Nat → List Nat → Tx → Bool
  setInput : Tx → Nat → StakeInput
  mapBlockIndex : Nat → BlockIndex
  hasStakeMinDepth : Int → Int → Bool
  hasStakeMinAge : Nat → Nat → Bool
  blake : List Nat → Nat

/-- initStakeInput (kernel.cpp lines 158-184).  The outer Option is
definedness: none models the undefined behaviour of the unguarded
indexings block.vtx[1], ptx->vin[0] and ptxPrev->vout[txin.prevout.n]
falling out of range; some carries the source's outcome, either a named
rejection or the constructed stake input. -/
def initStakeInput (env : ValidationEnv) (block : Block)
    (_nPreviousBlockHeight : Int) : Option (Except StakeError StakeInput) :=
  match block.vtx[1]? with
  | none => none
  | some ptx =>
      if ptx.isCoinStake = false then some (Except.error StakeError.notCoinStake)
      else
        match ptx.vin[0]? with
        | none => none
        | some txin =>
            match env.getTransaction txin.prevoutHash with
            | none => some (Except.error StakeError.originLookupFailed)
            | some (txPrev, _hashBlock) =>
                match txPrev.vout[txin.prevoutN]? with
                | none => none
                | some prevOut =>
                    if env.verifyScript txin.scriptSig prevOut.scriptPubKey ptx = false then
                      some (Except.error StakeError.signatureInvalid)
                    else some (Except.ok (env.setInput txPrev txin.prevoutN))

/-- CheckProofOfStake (kernel.cpp lines 186-215).  The checks run in the
source's order with short-circuit on the first failure: stake-input
initialization (coinstake shape, origin transaction lookup, script
verification), origin-position resolution, minimum depth, minimum age,
kernel target.  The outer Option is definedness as in initStakeInput.
On acceptance the computed proof hash is returned. -/
def checkProofOfStake (env : ValidationEnv) (block : Block)
    (nPreviousBlockHeight : Int) : Option (Except StakeError Nat) :=
  match initStakeInput env block nPreviousBlockHeight with
  | none => none
  | some (Except.error e) => some (Except.error e)
  | some (Except.ok stake) =>
      match stake.indexFrom with
      | none => some (Except.error StakeError.originIndexMissing)
      | some pindexfrom =>
          if env.hasStakeMinDepth (nPreviousBlockHeight + 1) pindexfrom.nHeight = false then
            some (Except.error StakeError.minDepthViolation)
          else if env.hasStakeMinAge block.nTime pindexfrom.nTime = false then
            some (Except.error StakeError.minAgeViolation)
          else
            match checkStakeKernelHash env.blake (env.mapBlockIndex block.hashPrevBlock)
                block.nBits stake block.nTime with
            | (true, some h) => some (Except.ok h)
            | _ => some (Except.error StakeError.kernelTargetNotMet)

/-- CheckCoinStakeTimestamp (kernel.cpp lines 218-222): the v0.3 protocol
requires the block time and the coinstake transaction time to be exactly
equal. -/
def checkCoinStakeTimestamp (nTimeBlock : Int) (nTimeTx : Int) : Bool :=
  nTimeBlock == nTimeTx

/-- CheckStakeModifierCheckpoints (kernel.cpp lines 225-232) with the
static checkpoint table and the network identifier passed explicitly, per
the spec's treatment of globals as scoped process state.  Any network
other than the main network passes unconditionally; on the main network a
recorded entry for the height must match the supplied checksum, and an
absent entry imposes no constraint. -/
def checkStakeModifierCheckpointsWith (checkpoints : List (Int × Nat))
    (networkID : String) (nHeight : Int) (nStakeModifierChecksum : Nat) : Bool :=
  if networkID ≠ "main" then true
  else
    match checkpoints.find? (fun p => p.1 == nHeight) with
    | some p => nStakeModifierChecksum == p.2
    | none => true

/-- The static checkpoint table of kernel.cpp line 25: currently empty. -/
def mapStakeModifierCheckpoints : List (Int × Nat) := []

/-- CheckStakeModifierCheckpoints applied to the repository's (empty)
static table. -/
def checkStakeModifierCheckpoints (networkID : String) (nHeight : Int)
    (nStakeModifierChecksum : Nat) : Bool :=
  checkStakeModifierCheckpointsWith mapStakeModifierCheckpoints networkID
    nHeight nStakeModifierChecksum

/-!
Theorems.  Each claim of the specification is settled below against the
embedding above.
-/

/-- C6: ComputeStakeModifier returns the all-zero 256-bit value when the
parent position is absent (genesis case), and otherwise returns the
designated cryptographic hash of the serialization of the kernel seed
followed by the parent's stake modifier; being a pure Lean function of its
arguments it is deterministic and total, with no failure mode. -/
theorem c6_compute_stake_modifier (hashFn : List Nat → Nat) (kernel : Nat)
    (p : BlockIndex) :
    computeStakeModifier hashFn none kernel = 0 ∧
    computeStakeModifier hashFn (some p) kernel =
      hashFn (ser256 kernel ++ ser256 p.nStakeModifier) :=
  ⟨rfl, rfl⟩

/-- C8: CheckStakeModifierCheckpoints returns true for every pair on any
network other than the main network; on the main network it returns true
when no checkpoint entry exists for the height, and when an entry exists
it returns true exactly when the supplied checksum equals the recorded
value. -/
theorem c8_checkpoints (checkpoints : List (Int × Nat)) (networkID : String)
    (nHeight : Int) (checksum : Nat) :
    (networkID ≠ "main" →
      checkStakeModifierCheckpointsWith checkpoints networkID nHeight checksum = true) ∧
    (checkpoints.find? (fun p => p.1 == nHeight) = none →
      checkStakeModifierCheckpointsWith checkpoints "main" nHeight checksum = true) ∧
    (∀ pr, checkpoints.find? (fun p => p.1 == nHeight) = some pr →
      (checkStakeModifierCheckpointsWith checkpoints "main" nHeight checksum = true ↔
        checksum = pr.2)) := by
  refine ⟨fun h => ?_, fun h => ?_, fun pr h => ?_⟩
  · simp [checkStakeModifierCheckpointsWith, h]
  · simp [checkStakeModifierCheckpointsWith, h]
  · simp [checkStakeModifierCheckpointsWith, h]

/-- Witness for c8_checkpoints at concrete inputs: a non-main network, a
main-network height with no entry, and a main-network height whose entry
is matched. -/
theorem c8_witness :
    checkStakeModifierCheckpointsWith [((5 : Int), (7 : Nat))] "test" 5 9 = true ∧
    checkStakeModifierCheckpointsWith [((5 : Int), (7 : Nat))] "main" 6 9 = true ∧
    (checkStakeModifierCheckpointsWith [((5 : Int), (7 : Nat))] "main" 5 7 = true ↔
      (7 : Nat) = ((5 : Int), (7 : Nat)).2) :=
  ⟨(c8_checkpoints [((5 : Int), (7 : Nat))] "test" 5 9).1 (by decide),
   (c8_checkpoints [((5 : Int), (7 : Nat))] "main" 6 9).2.1 (by decide),
   (c8_checkpoints [((5 : Int), (7 : Nat))] "main" 5 7).2.2 ((5 : Int), (7 : Nat)) (by decide)⟩

/-- C9: GetHashProofOfStake reads the parent position's stake modifier
unconditionally, so the embedding takes the parent as a plain (non-null)
BlockIndex: the non-null precondition of the source is part of the type.
Under that precondition it fails exactly when the stake input's origin
block index cannot be resolved, and otherwise returns the kernel hash of
the serialized modifier, origin time, uniqueness and candidate time. -/
theorem c9_hash_proof_characterization (blake : List Nat → Nat)
    (pindexPrev : BlockIndex) (stake : StakeInput) (nTimeTx : Nat) :
    (getHashProofOfStake blake pindexPrev stake nTimeTx = none ↔
      stake.indexFrom = none) ∧
    (∀ pf, stake.indexFrom = some pf →
      getHashProofOfStake blake pindexPrev stake nTimeTx =
        some (blake (ser256 pindexPrev.nStakeModifier ++ ser32 pf.nTime ++
          stake.uniqueness ++ ser32 nTimeTx))) := by
  cases h : stake.indexFrom <;> simp [getHashProofOfStake, h]

/-- Witness for c9_hash_proof_characterization at a concrete resolved
stake input and the constant-zero digest. -/
theorem c9_witness :
    getHashProofOfStake (fun _ => 0) ⟨5, 1000, 0⟩ ⟨100, [], some ⟨1, 900, 0⟩⟩ 12345 =
      some ((fun (_ : List Nat) => 0) (ser256 (0 : Nat) ++ ser32 900 ++ [] ++ ser32 12345)) :=
  (c9_hash_proof_characterization (fun _ => 0) ⟨5, 1000, 0⟩
    ⟨100, [], some ⟨1, 900, 0⟩⟩ 12345).2 ⟨1, 900, 0⟩ rfl

/-- C1 counterexample: with the constant-zero digest, parent position
(5, 1000, 0), bits 0x20008000 (base target 2 ^ 247), a resolved stake
input of value 51200 (weight 512) and candidate time 12345, the kernel
hash is 0 and is strictly below the base target times the weight
(2 ^ 247 * 512 = 2 ^ 256), yet CheckStakeKernelHash returns false: the
weighted-target multiplication is arith_uint256 arithmetic and wraps to
zero modulo 2 ^ 256, so the claimed equivalence fails at this input. -/
theorem c1_counterexample :
    (checkStakeKernelHash (fun _ => 0) ⟨5, 1000, 0⟩ 0x20008000
      ⟨51200, [], some ⟨1, 900, 0⟩⟩ 12345).1 = false ∧
    getHashProofOfStake (fun _ => 0) ⟨5, 1000, 0⟩
      ⟨51200, [], some ⟨1, 900, 0⟩⟩ 12345 = some 0 ∧
    (0 : Nat) < setCompact 0x20008000 * (51200 / 100) :=
  ⟨by decide, by decide, by decide⟩

/-- C1 amended: for every non-null parent position, difficulty bits,
stake input whose origin index resolves, and candidate time,
CheckStakeKernelHash returns true exactly when the kernel hash is
strictly less than the base target expanded from the compact bits
multiplied by the weight, the product being taken modulo 2 ^ 256
(arith_uint256 arithmetic) and the weight being the unsigned 64-bit
reinterpretation of the value divided by 100 with truncation. -/
theorem c1_weighted_target_mod (blake : List Nat → Nat) (pindexPrev : BlockIndex)
    (nBits : Nat) (stake : StakeInput) (nTimeTx : Nat) (pf : BlockIndex)
    (h : stake.indexFrom = some pf) :
    ((checkStakeKernelHash blake pindexPrev nBits stake nTimeTx).1 = true ↔
      blake (ser256 pindexPrev.nStakeModifier ++ ser32 pf.nTime ++
        stake.uniqueness ++ ser32 nTimeTx) <
      setCompact nBits * ((stake.value % (2 ^ 64 : Int)).toNat / 100) % 2 ^ 256) := by
  simp [checkStakeKernelHash, getHashProofOfStake, h]

/-- Witness for c1_weighted_target_mod at a concrete input of value 100:
weight 1, base target 2 ^ 247, kernel hash 0, so both sides hold. -/
theorem c1_witness :
    ((checkStakeKernelHash (fun _ => 0) ⟨5, 1000, 0⟩ 0x20008000
        ⟨100, [], some ⟨1, 900, 0⟩⟩ 12345).1 = true ↔
      (0 : Nat) <
        setCompact 0x20008000 * (((100 : Int) % (2 ^ 64 : Int)).toNat / 100) % 2 ^ 256) :=
  c1_weighted_target_mod (fun _ => 0) ⟨5, 1000, 0⟩ 0x20008000
    ⟨100, [], some ⟨1, 900, 0⟩⟩ 12345 ⟨1, 900, 0⟩ rfl

/-- C4 counterexample: with bits 0x20008000 (base target 2 ^ 247), the
constant-zero digest and a fixed kernel hash of 0, raising the stake
value from 100 (weight 1, weighted target 2 ^ 247, success) to 51200
(weight 512, weighted target wraps to 0 modulo 2 ^ 256, failure) flips
CheckStakeKernelHash from true to false, refuting the claimed
monotonicity. -/
theorem c4_counterexample :
    (checkStakeKernelHash (fun _ => 0) ⟨5, 1000, 0⟩ 0x20008000
      ⟨100, [], some ⟨1, 900, 0⟩⟩ 12345).1 = true ∧
    (checkStakeKernelHash (fun _ => 0) ⟨5, 1000, 0⟩ 0x20008000
      ⟨51200, [], some ⟨1, 900, 0⟩⟩ 12345).1 = false ∧
    (100 : Int) < 51200 :=
  ⟨by decide, by decide, by decide⟩

/-- C4 amended: for fixed difficulty bits and fixed kernel hash (the hash
does not depend on the value), replacing the stake value by a larger one
never changes CheckStakeKernelHash from true to false, provided both
values are nonnegative 64-bit amounts and the larger weighted target does
not overflow 2 ^ 256. -/
theorem c4_monotone_weight (blake : List Nat → Nat) (pindexPrev : BlockIndex)
    (nBits : Nat) (u : List Nat) (idx : Option BlockIndex) (nTimeTx : Nat)
    (v w : Int) (hv : 0 ≤ v) (hvw : v ≤ w) (hw : w < 2 ^ 64)
    (hnof : setCompact nBits * (w.toNat / 100) < 2 ^ 256)
    (h : (checkStakeKernelHash blake pindexPrev nBits ⟨v, u, idx⟩ nTimeTx).1 = true) :
    (checkStakeKernelHash blake pindexPrev nBits ⟨w, u, idx⟩ nTimeTx).1 = true := by
  cases hidx : idx with
  | none => simp [checkStakeKernelHash, getHashProofOfStake, hidx] at h
  | some pf =>
      have hv64 : v % (2 ^ 64 : Int) = v := Int.emod_eq_of_lt hv (by omega)
      have hw64 : w % (2 ^ 64 : Int) = w := Int.emod_eq_of_lt (by omega) hw
      simp only [checkStakeKernelHash, getHashProofOfStake, hidx, hv64, hw64,
        decide_eq_true_eq] at h ⊢
      have hmono : v.toNat / 100 ≤ w.toNat / 100 :=
        Nat.div_le_div_right (by omega)
      have hle : setCompact nBits * (v.toNat / 100) ≤
          setCompact nBits * (w.toNat / 100) :=
        Nat.mul_le_mul_left _ hmono
      have hvlt : setCompact nBits * (v.toNat / 100) < 2 ^ 256 :=
        lt_of_le_of_lt hle hnof
      rw [Nat.mod_eq_of_lt hnof]
      rw [Nat.mod_eq_of_lt hvlt] at h
      exact lt_of_lt_of_le h hle

/-- Witness for c4_monotone_weight: value raised from 100 to 200 under
bits 0x20008000, where the larger weighted target 2 ^ 248 does not
overflow. -/
theorem c4_witness :
    (checkStakeKernelHash (fun _ => 0) ⟨5, 1000, 0⟩ 0x20008000
      ⟨200, [], some ⟨1, 900, 0⟩⟩ 12345).1 = true :=
  c4_monotone_weight (fun _ => 0) ⟨5, 1000, 0⟩ 0x20008000 [] (some ⟨1, 900, 0⟩)
    12345 100 200 (by decide) (by decide) (by decide) (by decide) (by decide)

/-- Helper: when every probed time fails the kernel target and the chain
tip never moves, the probing loop consumes all its fuel, probing once per
unit of fuel, and reports no success. -/
theorem stakeLoop_all_fail (env : StakeEnv) (pindexPrev : BlockIndex) (nBits : Nat)
    (stakeInput : StakeInput) (prevHeight : Int) :
    ∀ fuel start i,
      (∀ j, env.chainHeight (i + j) = prevHeight) →
      (∀ u, start < u → u ≤ start + fuel →
        (checkStakeKernelHash env.blake pindexPrev nBits stakeInput u).1 = false) →
      stakeLoop env pindexPrev nBits stakeInput prevHeight fuel start i = (none, fuel) := by
  intro fuel
  induction fuel with
  | zero => intro start i _ _; rfl
  | succ f ih =>
      intro start i htip hfail
      have htip0 : env.chainHeight i = prevHeight := by
        have := htip 0
        simpa using this
      have hprobe : (checkStakeKernelHash env.blake pindexPrev nBits stakeInput
          (start + 1)).1 = false :=
        hfail (start + 1) (by omega) (by omega)
      have hrec := ih (start + 1) (i + 1)
        (fun j => by have := htip (j + 1); simpa [Nat.add_assoc, Nat.add_comm 1 j] using this)
        (fun u hu1 hu2 => hfail u (by omega) (by omega))
      simp only [stakeLoop, htip0, ne_eq, not_true_eq_false, if_false]
      cases hck : checkStakeKernelHash env.blake pindexPrev nBits stakeInput (start + 1) with
      | mk b o =>
          have hb : b = false := by rw [hck] at hprobe; exact hprobe
          subst hb
          simp [hrec]

/-- Helper: when the probes before iteration m all fail, the tip reads
before iteration m all match the initial height, and the tip read at
iteration m does not, the probing loop stops at iteration m with no
success and exactly m probes performed. -/
theorem stakeLoop_tip_change (env : StakeEnv) (pindexPrev : BlockIndex) (nBits : Nat)
    (stakeInput : StakeInput) (prevHeight : Int) :
    ∀ m fuel start i,
      m < fuel →
      (∀ j, j < m → env.chainHeight (i + j) = prevHeight) →
      env.chainHeight (i + m) ≠ prevHeight →
      (∀ u, start < u → u ≤ start + m →
        (checkStakeKernelHash env.blake pindexPrev nBits stakeInput u).1 = false) →
      stakeLoop env pindexPrev nBits stakeInput prevHeight fuel start i = (none, m) := by
  intro m
  induction m with
  | zero =>
      intro fuel start i hlt _ hchg _
      cases fuel with
      | zero => omega
      | succ f =>
          have h0 : env.chainHeight i ≠ prevHeight := by simpa using hchg
          simp [stakeLoop, h0]
  | succ m ih =>
      intro fuel start i hlt htip hchg hfail
      cases fuel with
      | zero => omega
      | succ f =>
          have hprobe : (checkStakeKernelHash env.blake pindexPrev nBits stakeInput
              (start + 1)).1 = false :=
            hfail (start + 1) (by omega) (by omega)
          have hrec := ih f (start + 1) (i + 1) (by omega)
            (fun j hj => by
              have := htip (j + 1) (by omega)
              simpa [Nat.add_assoc, Nat.add_comm 1 j] using this)
            (by
              have : i + 1 + m = i + (m + 1) := by omega
              rw [this]; exact hchg)
            (fun u hu1 hu2 => hfail u (by omega) (by omega))
          have htip0s : env.chainHeight i = prevHeight := by
            have := htip 0 (by omega); simpa using this
          simp only [stakeLoop, htip0s, ne_eq, not_true_eq_false, if_false]
          cases hck : checkStakeKernelHash env.blake pindexPrev nBits stakeInput (start + 1) with
          | mk b o =>
              have hb : b = false := by rw [hck] at hprobe; exact hprobe
              subst hb
              simp [hrec]

/-- Helper: the Stake epilogue installs the single attempt-cache entry
whatever the loop produced. -/
theorem stakeFinish_cache (env : StakeEnv) (t : Nat) (x : Option (Nat × Nat) × Nat) :
    (stakeFinish env t x).cache = [(env.tipHeightFinal, env.timeFinal)] := by
  rcases x with ⟨r, n⟩
  cases r with
  | none => rfl
  | some p => rcases p with ⟨a, b⟩; rfl

/-- C7: on every return of Stake that reaches the search loop — success,
exhaustion, or tip-change abort — the attempt cache mapHashedBlocks holds
exactly one entry, mapping the tip height read at completion to the
wall-clock time read at completion, all prior entries removed.  (The
pre-loop early returns of the source — missing origin, maturity
violations — leave the cache untouched and are outside the claim.) -/
theorem c7_cache_single_entry (env : StakeEnv) (cache0 : List (Int × Int))
    (pindexPrev : BlockIndex) (stakeInput : StakeInput) (nBits nTimeTx : Nat)
    (pf : BlockIndex) (h1 : stakeInput.indexFrom = some pf)
    (h2 : ¬ pf.nHeight < 1)
    (h3 : ¬ env.nStakeMinAge > env.adjustedTime - (pf.nTime : Int))
    (h4 : ¬ pindexPrev.nHeight + 1 < pf.nHeight + env.coinstakeMinDepth) :
    (Stake env cache0 pindexPrev stakeInput nBits nTimeTx).cache =
      [(env.tipHeightFinal, env.timeFinal)] := by
  simp [Stake, h1, h2, h3, h4, stakeFinish_cache]

/-- Witness for c7_cache_single_entry at a concrete environment: the
cache holds exactly the entry (5, 777). -/
theorem c7_witness :
    (Stake ⟨fun _ => 0, 0, 1000000000, 0, 4294967295, fun _ => 5, 5, 777⟩ [(3, 9), (4, 8)]
      ⟨5, 1000, 0⟩ ⟨50, [], some ⟨1, 900, 0⟩⟩ 486604799 10000).cache = [(5, 777)] :=
  c7_cache_single_entry ⟨fun _ => 0, 0, 1000000000, 0, 4294967295, fun _ => 5, 5, 777⟩
    [(3, 9), (4, 8)] ⟨5, 1000, 0⟩ ⟨50, [], some ⟨1, 900, 0⟩⟩ 486604799 10000
    ⟨1, 900, 0⟩ rfl (by decide) (by decide) (by decide)

/-- C2 counterexample: in an environment with a constant tip, a stake
input of value 50 (weight 0, weighted target 0, so no probe can succeed),
candidate start time 10000 and an unconstraining future-time bound, Stake
returns failure after exactly 61 kernel-hash evaluations, not the 60
(= drift) the claim states: the loop increments before probing, so it
probes nTimeTx through maxTime inclusive. -/
theorem c2_counterexample :
    (Stake ⟨fun _ => 0, 0, 1000000000, 0, 4294967295, fun _ => 5, 5, 777⟩ []
      ⟨5, 1000, 0⟩ ⟨50, [], some ⟨1, 900, 0⟩⟩ 486604799 10000).success = false ∧
    (Stake ⟨fun _ => 0, 0, 1000000000, 0, 4294967295, fun _ => 5, 5, 777⟩ []
      ⟨5, 1000, 0⟩ ⟨50, [], some ⟨1, 900, 0⟩⟩ 486604799 10000).probes = 61 ∧
    nHashDrift = 60 :=
  ⟨by decide, by decide, by decide⟩

/-- C2 amended: for every invocation of Stake that passes the origin and
maturity checks, the search probes candidate times starting at nTimeTx
and up to maxTime = min(nTimeTx + drift, networkMaxFutureTime) inclusive
of maxTime, one time unit per iteration; in particular, when no probed
time meets the target and the tip does not change, Stake returns failure
after exactly drift + 1 probes (when the drift bound is the binding one). -/
theorem c2_probe_count (env : StakeEnv) (cache0 : List (Int × Int))
    (pindexPrev : BlockIndex) (stakeInput : StakeInput) (nBits nTimeTx : Nat)
    (pf : BlockIndex) (h1 : stakeInput.indexFrom = some pf)
    (h2 : ¬ pf.nHeight < 1)
    (h3 : ¬ env.nStakeMinAge > env.adjustedTime - (pf.nTime : Int))
    (h4 : ¬ pindexPrev.nHeight + 1 < pf.nHeight + env.coinstakeMinDepth)
    (h5 : 1 ≤ nTimeTx) (h6 : nTimeTx + nHashDrift < 2 ^ 32)
    (h7 : nTimeTx + nHashDrift ≤ env.maxFutureBlockTime)
    (h8 : env.maxFutureBlockTime < 2 ^ 32)
    (htip : ∀ i, env.chainHeight i = pindexPrev.nHeight)
    (hfail : ∀ u, nTimeTx ≤ u → u ≤ nTimeTx + nHashDrift →
      (checkStakeKernelHash env.blake pindexPrev nBits stakeInput u).1 = false) :
    (Stake env cache0 pindexPrev stakeInput nBits nTimeTx).success = false ∧
    (Stake env cache0 pindexPrev stakeInput nBits nTimeTx).probes = nHashDrift + 1 := by
  have p32 : (2 : Nat) ^ 32 = 4294967296 := by norm_num
  have hd : nHashDrift = 60 := rfl
  have h6n : nTimeTx + 60 < 4294967296 := by rw [hd] at h6; omega
  have h7n : nTimeTx + 60 ≤ env.maxFutureBlockTime := by rw [hd] at h7; exact h7
  have e1 : nTimeTx % 2 ^ 32 = nTimeTx := by rw [p32]; omega
  have e2 : (nTimeTx + 2 ^ 32 - 1) % 2 ^ 32 = nTimeTx - 1 := by rw [p32]; omega
  have e3 : stakeMaxTime env nTimeTx = nTimeTx + 60 := by
    simp only [stakeMaxTime, hd]
    rw [Nat.mod_eq_of_lt (by rw [p32]; omega), Nat.mod_eq_of_lt (by omega)]
    exact Nat.min_eq_left h7n
  have e4 : nTimeTx + 60 - (nTimeTx - 1) = 61 := by omega
  have hloop := stakeLoop_all_fail env pindexPrev nBits stakeInput pindexPrev.nHeight
    61 (nTimeTx - 1) 0
    (fun j => htip (0 + j))
    (fun u hu1 hu2 => hfail u (by omega) (by rw [hd]; omega))
  simp only [Stake, h1, h2, h3, h4, if_false, e1, e2, e3, e4, hloop]
  exact ⟨rfl, rfl⟩

/-- Witness for c2_probe_count at a concrete environment where every
probe fails because the weight of a value-50 input is zero. -/
theorem c2_witness :
    (Stake ⟨fun _ => 0, 0, 1000000000, 0, 4294967295, fun _ => 5, 5, 777⟩ []
      ⟨5, 1000, 0⟩ ⟨50, [], some ⟨1, 900, 0⟩⟩ 486604799 10000).success = false ∧
    (Stake ⟨fun _ => 0, 0, 1000000000, 0, 4294967295, fun _ => 5, 5, 777⟩ []
      ⟨5, 1000, 0⟩ ⟨50, [], some ⟨1, 900, 0⟩⟩ 486604799 10000).probes = nHashDrift + 1 :=
  c2_probe_count ⟨fun _ => 0, 0, 1000000000, 0, 4294967295, fun _ => 5, 5, 777⟩ []
    ⟨5, 1000, 0⟩ ⟨50, [], some ⟨1, 900, 0⟩⟩ 486604799 10000 ⟨1, 900, 0⟩ rfl
    (by decide) (by decide) (by decide) (by decide) (by decide) (by decide) (by decide)
    (fun _ => rfl)
    (fun u _ _ => by
      simp only [checkStakeKernelHash, getHashProofOfStake]
      norm_num
      decide)

/-- C5: if the chain-tip height observed at a loop iteration of Stake
differs from the height recorded when the search began, Stake stops
probing at that iteration and returns failure: with the tip reads
matching up to iteration m, a mismatching read at iteration m, and no
earlier probe meeting the target, Stake fails with exactly m kernel-hash
evaluations — none at the remaining candidate times — so an observed tip
change never yields a successful proof. -/
theorem c5_tip_change_abort (env : StakeEnv) (cache0 : List (Int × Int))
    (pindexPrev : BlockIndex) (stakeInput : StakeInput) (nBits nTimeTx : Nat)
    (pf : BlockIndex) (h1 : stakeInput.indexFrom = some pf)
    (h2 : ¬ pf.nHeight < 1)
    (h3 : ¬ env.nStakeMinAge > env.adjustedTime - (pf.nTime : Int))
    (h4 : ¬ pindexPrev.nHeight + 1 < pf.nHeight + env.coinstakeMinDepth)
    (h5 : 1 ≤ nTimeTx) (h6 : nTimeTx + nHashDrift < 2 ^ 32)
    (h7 : nTimeTx + nHashDrift ≤ env.maxFutureBlockTime)
    (h8 : env.maxFutureBlockTime < 2 ^ 32)
    (m : Nat) (hm : m ≤ nHashDrift)
    (htip : ∀ j, j < m → env.chainHeight j = pindexPrev.nHeight)
    (hchg : env.chainHeight m ≠ pindexPrev.nHeight)
    (hfail : ∀ u, nTimeTx ≤ u → u < nTimeTx + m →
      (checkStakeKernelHash env.blake pindexPrev nBits stakeInput u).1 = false) :
    (Stake env cache0 pindexPrev stakeInput nBits nTimeTx).success = false ∧
    (Stake env cache0 pindexPrev stakeInput nBits nTimeTx).probes = m := by
  have p32 : (2 : Nat) ^ 32 = 4294967296 := by norm_num
  have hd : nHashDrift = 60 := rfl
  have h6n : nTimeTx + 60 < 4294967296 := by rw [hd] at h6; omega
  have h7n : nTimeTx + 60 ≤ env.maxFutureBlockTime := by rw [hd] at h7; exact h7
  have hm60 : m ≤ 60 := by rw [hd] at hm; exact hm
  have e1 : nTimeTx % 2 ^ 32 = nTimeTx := by rw [p32]; omega
  have e2 : (nTimeTx + 2 ^ 32 - 1) % 2 ^ 32 = nTimeTx - 1 := by rw [p32]; omega
  have e3 : stakeMaxTime env nTimeTx = nTimeTx + 60 := by
    simp only [stakeMaxTime, hd]
    rw [Nat.mod_eq_of_lt (by rw [p32]; omega), Nat.mod_eq_of_lt (by omega)]
    exact Nat.min_eq_left h7n
  have e4 : nTimeTx + 60 - (nTimeTx - 1) = 61 := by omega
  have hloop := stakeLoop_tip_change env pindexPrev nBits stakeInput pindexPrev.nHeight
    m 61 (nTimeTx - 1) 0 (by omega)
    (fun j hj => by simpa using htip j hj)
    (by simpa using hchg)
    (fun u hu1 hu2 => hfail u (by omega) (by omega))
  simp only [Stake, h1, h2, h3, h4, if_false, e1, e2, e3, e4, hloop]
  exact ⟨rfl, rfl⟩

/-- Witness for c5_tip_change_abort at a concrete environment whose tip
height reads 5 on the first three iterations and 6 afterwards: the search
stops after exactly 3 probes and fails. -/
theorem c5_witness :
    (Stake ⟨fun _ => 0, 0, 1000000000, 0, 4294967295,
        fun i => if i < 3 then (5 : Int) else 6, 6, 777⟩ []
      ⟨5, 1000, 0⟩ ⟨50, [], some ⟨1, 900, 0⟩⟩ 486604799 10000).success = false ∧
    (Stake ⟨fun _ => 0, 0, 1000000000, 0, 4294967295,
        fun i => if i < 3 then (5 : Int) else 6, 6, 777⟩ []
      ⟨5, 1000, 0⟩ ⟨50, [], some ⟨1, 900, 0⟩⟩ 486604799 10000).probes = 3 :=
  c5_tip_change_abort ⟨fun _ => 0, 0, 1000000000, 0, 4294967295,
      fun i => if i < 3 then (5 : Int) else 6, 6, 777⟩ []
    ⟨5, 1000, 0⟩ ⟨50, [], some ⟨1, 900, 0⟩⟩ 486604799 10000 ⟨1, 900, 0⟩ rfl
    (by decide) (by decide) (by decide) (by decide) (by decide) (by decide) (by decide)
    3 (by decide)
    (fun j hj => by simp [hj])
    (by decide)
    (fun u _ _ => by
      simp only [checkStakeKernelHash, getHashProofOfStake]
      norm_num
      decide)

/-- C3: CheckProofOfStake performs its checks in the source's strict order
with short-circuit on the first failure.  Under a well-formed coinstake
(second transaction present and a coinstake, with a first input), each
conjunct states that when every earlier check passes and one check fails,
the returned rejection names exactly that check: origin lookup, script
verification, origin-position resolution, minimum depth, minimum age,
kernel target; and when all pass, the proof hash is accepted.  In
particular a coinstake referencing a previous transaction absent from the
transaction index is rejected with the origin-lookup failure, never
accepted. -/
theorem c3_check_order (env : ValidationEnv) (block : Block) (ph : Int)
    (ptx : Tx) (txin : TxIn)
    (h1 : block.vtx[1]? = some ptx) (h2 : ptx.isCoinStake = true)
    (h3 : ptx.vin[0]? = some txin) :
    (env.getTransaction txin.prevoutHash = none →
      checkProofOfStake env block ph = some (Except.error StakeError.originLookupFailed)) ∧
    (∀ txPrev hb prevOut, env.getTransaction txin.prevoutHash = some (txPrev, hb) →
      txPrev.vout[txin.prevoutN]? = some prevOut →
      env.verifyScript txin.scriptSig prevOut.scriptPubKey ptx = false →
      checkProofOfStake env block ph = some (Except.error StakeError.signatureInvalid)) ∧
    (∀ txPrev hb prevOut, env.getTransaction txin.prevoutHash = some (txPrev, hb) →
      txPrev.vout[txin.prevoutN]? = some prevOut →
      env.verifyScript txin.scriptSig prevOut.scriptPubKey ptx = true →
      (env.setInput txPrev txin.prevoutN).indexFrom = none →
      checkProofOfStake env block ph = some (Except.error StakeError.originIndexMissing)) ∧
    (∀ txPrev hb prevOut pf, env.getTransaction txin.prevoutHash = some (txPrev, hb) →
      txPrev.vout[txin.prevoutN]? = some prevOut →
      env.verifyScript txin.scriptSig prevOut.scriptPubKey ptx = true →
      (env.setInput txPrev txin.prevoutN).indexFrom = some pf →
      env.hasStakeMinDepth (ph + 1) pf.nHeight = false →
      checkProofOfStake env block ph = some (Except.error StakeError.minDepthViolation)) ∧
    (∀ txPrev hb prevOut pf, env.getTransaction txin.prevoutHash = some (txPrev, hb) →
      txPrev.vout[txin.prevoutN]? = some prevOut →
      env.verifyScript txin.scriptSig prevOut.scriptPubKey ptx = true →
      (env.setInput txPrev txin.prevoutN).indexFrom = some pf →
      env.hasStakeMinDepth (ph + 1) pf.nHeight = true →
      env.hasStakeMinAge block.nTime pf.nTime = false →
      checkProofOfStake env block ph = some (Except.error StakeError.minAgeViolation)) ∧
    (∀ txPrev hb prevOut pf, env.getTransaction txin.prevoutHash = some (txPrev, hb) →
      txPrev.vout[txin.prevoutN]? = some prevOut →
      env.verifyScript txin.scriptSig prevOut.scriptPubKey ptx = true →
      (env.setInput txPrev txin.prevoutN).indexFrom = some pf →
      env.hasStakeMinDepth (ph + 1) pf.nHeight = true →
      env.hasStakeMinAge block.nTime pf.nTime = true →
      (checkStakeKernelHash env.blake (env.mapBlockIndex block.hashPrevBlock)
        block.nBits (env.setInput txPrev txin.prevoutN) block.nTime).1 = false →
      checkProofOfStake env block ph = some (Except.error StakeError.kernelTargetNotMet)) ∧
    (∀ txPrev hb prevOut pf hsh, env.getTransaction txin.prevoutHash = some (txPrev, hb) →
      txPrev.vout[txin.prevoutN]? = some prevOut →
      env.verifyScript txin.scriptSig prevOut.scriptPubKey ptx = true →
      (env.setInput txPrev txin.prevoutN).indexFrom = some pf →
      env.hasStakeMinDepth (ph + 1) pf.nHeight = true →
      env.hasStakeMinAge block.nTime pf.nTime = true →
      checkStakeKernelHash env.blake (env.mapBlockIndex block.hashPrevBlock)
        block.nBits (env.setInput txPrev txin.prevoutN) block.nTime = (true, some hsh) →
      checkProofOfStake env block ph = some (Except.ok hsh)) := by
  refine ⟨?_, ?_, ?_, ?_, ?_, ?_, ?_⟩
  · intro hlk
    simp [checkProofOfStake, initStakeInput, h1, h2, h3, hlk]
  · intro txPrev hb prevOut hlk hout hvs
    simp [checkProofOfStake, initStakeInput, h1, h2, h3, hlk, hout, hvs]
  · intro txPrev hb prevOut hlk hout hvs hif
    simp [checkProofOfStake, initStakeInput, h1, h2, h3, hlk, hout, hvs, hif]
  · intro txPrev hb prevOut pf hlk hout hvs hif hdep
    simp [checkProofOfStake, initStakeInput, h1, h2, h3, hlk, hout, hvs, hif, hdep]
  · intro txPrev hb prevOut pf hlk hout hvs hif hdep hage
    simp [checkProofOfStake, initStakeInput, h1, h2, h3, hlk, hout, hvs, hif, hdep, hage]
  · intro txPrev hb prevOut pf hlk hout hvs hif hdep hage hker
    simp only [checkProofOfStake, initStakeInput, h1, h2, h3, hlk, hout, hvs, hif, hdep, hage]
    cases hck : checkStakeKernelHash env.blake (env.mapBlockIndex block.hashPrevBlock)
        block.nBits (env.setInput txPrev txin.prevoutN) block.nTime with
    | mk b o =>
        have hb2 : b = false := by rw [hck] at hker; exact hker
        subst hb2
        simp [hif, hdep, hage, hck]
  · intro txPrev hb prevOut pf hsh hlk hout hvs hif hdep hage hker
    simp [checkProofOfStake, initStakeInput, h1, h2, h3, hlk, hout, hvs, hif, hdep, hage, hker]

/-- Witness for c3_check_order at a concrete block whose coinstake
references a transaction absent from the index: the validator rejects
with the origin-lookup failure. -/
theorem c3_witness :
    checkProofOfStake
      ⟨fun _ => none, fun _ _ _ => true, fun _ _ => ⟨0, [], none⟩, fun _ => ⟨0, 0, 0⟩,
        fun _ _ => true, fun _ _ => true, fun _ => 0⟩
      ⟨[⟨[], [], false⟩, ⟨[⟨99, 0, []⟩], [], true⟩], 0, 500, 486604799⟩ 10 =
      some (Except.error StakeError.originLookupFailed) :=
  (c3_check_order
    ⟨fun _ => none, fun _ _ _ => true, fun _ _ => ⟨0, [], none⟩, fun _ => ⟨0, 0, 0⟩,
      fun _ _ => true, fun _ _ => true, fun _ => 0⟩
    ⟨[⟨[], [], false⟩, ⟨[⟨99, 0, []⟩], [], true⟩], 0, 500, 486604799⟩ 10
    ⟨[⟨99, 0, []⟩], [], true⟩ ⟨99, 0, []⟩ (by decide) (by decide) (by decide)).1 rfl

/-- Helper: once the stake-input initialization has a defined outcome,
CheckProofOfStake has a defined outcome: every later branch returns an
explicit acceptance or rejection. -/
theorem checkProofOfStake_ne_none (env : ValidationEnv) (block : Block) (ph : Int)
    (h : initStakeInput env block ph ≠ none) :
    checkProofOfStake env block ph ≠ none := by
  cases hi : initStakeInput env block ph with
  | none => exact absurd hi h
  | some x =>
      cases x with
      | error e => simp [checkProofOfStake, hi]
      | ok stake =>
          simp only [checkProofOfStake, hi]
          split
          · simp
          · split
            · simp
            · split
              · simp
              · split <;> simp

/-- C10: the unguarded indexings of the source are exactly the
definedness conditions of the embedding: CheckProofOfStake is undefined
precisely when the block has no second transaction, or the (coinstake)
second transaction has no first input, or the first input's previous
output index falls outside the looked-up previous transaction's outputs;
and a second transaction that is not a coinstake is rejected before any
transaction-index lookup (the rejection holds for every lookup oracle). -/
theorem c10_definedness (env : ValidationEnv) (block : Block) (ph : Int) :
    (checkProofOfStake env block ph = none ↔
      block.vtx[1]? = none ∨
      (∃ ptx, block.vtx[1]? = some ptx ∧ ptx.isCoinStake = true ∧
        (ptx.vin[0]? = none ∨
         ∃ txin txPrev hb, ptx.vin[0]? = some txin ∧
           env.getTransaction txin.prevoutHash = some (txPrev, hb) ∧
           txPrev.vout[txin.prevoutN]? = none))) ∧
    (∀ ptx, block.vtx[1]? = some ptx → ptx.isCoinStake = false →
      checkProofOfStake env block ph = some (Except.error StakeError.notCoinStake)) := by
  refine ⟨?_, ?_⟩
  · cases hv : block.vtx[1]? with
    | none => simp [checkProofOfStake, initStakeInput, hv]
    | some ptx =>
        cases hcs : ptx.isCoinStake with
        | false => simp [checkProofOfStake, initStakeInput, hv, hcs]
        | true =>
            cases hvin : ptx.vin[0]? with
            | none =>
                have hnil : ptx.vin = [] := by
                  cases hvl : ptx.vin with
                  | nil => rfl
                  | cons a l => rw [hvl] at hvin; simp at hvin
                simp [checkProofOfStake, initStakeInput, hv, hcs, hvin, hnil]
            | some txin =>
                have hnenil : ¬ ptx.vin = [] := by
                  intro he; rw [he] at hvin; simp at hvin
                cases hlk : env.getTransaction txin.prevoutHash with
                | none =>
                    simp [checkProofOfStake, initStakeInput, hv, hcs, hvin, hlk, hnenil]
                | some pr =>
                    rcases pr with ⟨txPrev, hb⟩
                    cases hout : txPrev.vout[txin.prevoutN]? with
                    | none =>
                        have hlen : txPrev.vout.length ≤ txin.prevoutN := by
                          simpa using hout
                        simp [checkProofOfStake, initStakeInput, hv, hcs, hvin, hlk, hout,
                          hlen]
                    | some prevOut =>
                        have hne := checkProofOfStake_ne_none env block ph (by
                          simp only [initStakeInput, hv, hcs, hvin, hlk, hout]
                          split
                          · simp
                          · split <;> simp)
                        simp [hv, hcs, hvin, hlk, hout, hne]
                        refine ⟨hnenil, ?_⟩
                        by_contra hge
                        push_neg at hge
                        rw [List.getElem?_eq_none hge] at hout
                        exact Option.noConfusion hout
  · intro ptx hvt hcs
    simp [checkProofOfStake, initStakeInput, hvt, hcs]

/-- Witness for c10_definedness at a concrete block whose second
transaction is not a coinstake: validation is defined and rejects with
the coinstake-shape failure before any lookup. -/
theorem c10_witness :
    checkProofOfStake
      ⟨fun _ => none, fun _ _ _ => true, fun _ _ => ⟨0, [], none⟩, fun _ => ⟨0, 0, 0⟩,
        fun _ _ => true, fun _ _ => true, fun _ => 0⟩
      ⟨[⟨[], [], false⟩, ⟨[⟨99, 0, []⟩], [], false⟩], 0, 500, 486604799⟩ 10 =
      some (Except.error StakeError.notCoinStake) :=
  (c10_definedness
    ⟨fun _ => none, fun _ _ _ => true, fun _ _ => ⟨0, [], none⟩, fun _ => ⟨0, 0, 0⟩,
      fun _ _ => true, fun _ _ => true, fun _ => 0⟩
    ⟨[⟨[], [], false⟩, ⟨[⟨99, 0, []⟩], [], false⟩], 0, 500, 486604799⟩ 10).2
    ⟨[⟨99, 0, []⟩], [], false⟩ (by decide) (by decide)

end PoSKernel
